import Mathlib

/-!
Verification of the runtime backend-selection core of the `nebula` repository
(`src/backends/llama_cpp/llama-cpp-sys/src/lib.rs`).

The Rust code is shallowly embedded: pure functions become Lean functions;
code that can panic (`unreachable!`, `unwrap`) is modelled with `Option`,
where `Option.none` marks a panic; the dynamic-library loader and the
filesystem glob are modelled as explicit oracles passed in as arguments.
-/

set_option maxHeartbeats 1000000

namespace Nebula

/-- CPU instruction-set capability tier, from `enum CPUCapability`.
The derived Rust `Ord` orders the constructors by declaration order:
`None < Avx < Avx2`. -/
inductive CPUCapability where
  | none
  | avx
  | avx2
deriving DecidableEq, Repr

/-- Discriminant of a `CPUCapability`, realising the derived Rust `Ord`. -/
def CPUCapability.rank : CPUCapability → Int
  | CPUCapability.none => 0
  | CPUCapability.avx => 1
  | CPUCapability.avx2 => 2

/-- `CPUCapability::from`: `"avx"`, `"avx2"` and `""` parse; any other string
hits `unreachable!()`, which we model as `Option.none` (a panic). -/
def CPUCapability.fromString? (vv : String) : Option CPUCapability :=
  if vv = "avx" then some CPUCapability.avx
  else if vv = "avx2" then some CPUCapability.avx2
  else if vv = "" then some CPUCapability.none
  else Option.none

/-- `struct MemInfo`. -/
structure MemInfo where
  total : Nat := 0
  free : Nat := 0
deriving DecidableEq, Repr

/-- `struct DriverVersion`. -/
structure DriverVersion where
  major : Int := 0
  minor : Int := 0
deriving DecidableEq, Repr

/-- `struct Variant`: a backend directory name split into library kind and
variant tag. -/
structure Variant where
  library : String
  variant : String
deriving DecidableEq, Repr

/-- `struct DeviceInfo` (fields not used by the selection logic are kept for
fidelity of the data model). -/
structure DeviceInfo where
  memInfo : MemInfo := {}
  library : String := ""
  variant : CPUCapability := CPUCapability.none
  minimum_memory : Nat := 0
  id : String := ""
  name : String := ""
  compute : String := ""
  driver_version : DriverVersion := {}
deriving Repr

/-- The filter predicate inside `DeviceInfo::variants`.  For a cpu device the
Rust code evaluates `v.library == "cpu" && self.variant >= CPUCapability::from(&v.variant)`;
`&&` short-circuits, so `CPUCapability::from` (which can panic) only runs on
variants whose library is `"cpu"`. -/
def DeviceInfo.variantMatch? (d : DeviceInfo) (v : Variant) : Option Bool :=
  if d.library = "cpu" then
    if v.library = "cpu" then
      (CPUCapability.fromString? v.variant).map
        (fun t => decide (t.rank ≤ d.variant.rank))
    else some false
  else
    some (decide (d.library = v.library ∨ v.library = "cpu"))

/-- `DeviceInfo::variants`: filter the catalog by `variantMatch?`, propagating
a panic of the predicate as `Option.none`. -/
def DeviceInfo.variants (d : DeviceInfo) : List Variant → Option (List Variant)
  | [] => some []
  | v :: rest => do
      let keep ← d.variantMatch? v
      let tail ← d.variants rest
      pure (if keep then v :: tail else tail)

example : (DeviceInfo.variants { library := "cpu", variant := CPUCapability.avx2 }
    [⟨"cpu", "avx"⟩, ⟨"cuda", "v12.4"⟩, ⟨"cpu", "avx2"⟩]) =
    some [⟨"cpu", "avx"⟩, ⟨"cpu", "avx2"⟩] := by decide

example : (DeviceInfo.variants { library := "cuda" }
    [⟨"cpu", "avx"⟩, ⟨"cuda", "v12.4"⟩, ⟨"metal", ""⟩]) =
    some [⟨"cpu", "avx"⟩, ⟨"cuda", "v12.4"⟩] := by decide

example : (DeviceInfo.variants { library := "cpu", variant := CPUCapability.avx }
    [⟨"cpu", "weird"⟩]) = Option.none := by decide

/-! ### Version-tag parsing, as performed inside the sort comparator

The Rust code slices off the first byte of the tag (`a.variant[1..]`, a panic
if the tag is empty or its first character is multi-byte), splits on `'.'`,
parses the first two components with `str::parse::<i32>()` (whose failure is
an `unwrap` panic; later components are never parsed because the `map` is
lazy), defaults a missing second component to 0, and combines them as
`major * 1000 + minor`. -/

/-- Numeric value of a run of decimal digits; `Option.none` when empty or a
non-digit occurs (Rust `str::parse::<i32>` error). -/
def digitsVal (l : List Char) : Option Nat :=
  if l = [] then Option.none
  else l.foldl (fun acc c => do
    let a ← acc
    if c.isDigit then some (a * 10 + (c.toNat - 48)) else Option.none) (some 0)

/-- `str::parse::<i32>`: optional sign, then decimal digits, within the `i32`
range; anything else is an error (an `unwrap` panic at the call site). -/
def parseI32? (s : List Char) : Option Int :=
  match s with
  | [] => Option.none
  | c :: rest =>
    if c = '+' then
      (digitsVal rest).bind (fun n =>
        if n ≤ 2147483647 then some (n : Int) else Option.none)
    else if c = '-' then
      (digitsVal rest).bind (fun n =>
        if n ≤ 2147483648 then some (-(n : Int)) else Option.none)
    else
      (digitsVal s).bind (fun n =>
        if n ≤ 2147483647 then some (n : Int) else Option.none)

/-- Rust `str::split(sep)` on a character list: always yields at least one
(possibly empty) component. -/
def splitOnChar (sep : Char) : List Char → List (List Char)
  | [] => [[]]
  | c :: rest =>
    let r := splitOnChar sep rest
    if c = sep then [] :: r
    else
      match r with
      | [] => [[c]]
      | h :: t => (c :: h) :: t

/-- The `v<major>.<minor>` value `major * 1000 + minor` computed by the
comparator on a variant tag.  The source computes it in `i32`: the two
components are range-checked by `str::parse::<i32>`, but the combination is
not, so `major * 1000` (and then `major * 1000 + minor`) can leave the `i32`
range — an arithmetic overflow, which panics in a debug build and wraps in a
release build.  `Option.none` marks that mode-dependent overflow outcome
together with the byte-slice panic on an empty or multi-byte-leading tag and
the `parse().unwrap()` panic on a non-numeric first or second component;
`some v` is returned exactly when both build modes compute the same value
`v`, which then equals the unbounded integer `major * 1000 + minor`. -/
def verNum? (tag : String) : Option Int :=
  match tag.toList with
  | [] => Option.none
  | c :: rest =>
    if c.utf8Size ≠ 1 then Option.none
    else
      match splitOnChar '.' rest with
      | [] => Option.none
      | [a] =>
        (parseI32? a).bind (fun x =>
          if -2147483648 ≤ x * 1000 ∧ x * 1000 ≤ 2147483647 then
            some (x * 1000)
          else Option.none)
      | a :: b :: _ => do
          let x ← parseI32? a
          let y ← parseI32? b
          if -2147483648 ≤ x * 1000 ∧ x * 1000 ≤ 2147483647 then
            if -2147483648 ≤ x * 1000 + y ∧ x * 1000 + y ≤ 2147483647 then
              pure (x * 1000 + y)
            else Option.none
          else Option.none

example : verNum? "v12.4" = some 12004 := by decide
example : verNum? "v12" = some 12000 := by decide
example : verNum? "v1.2.garbage" = some 1002 := by decide
example : verNum? "" = Option.none := by decide
example : verNum? "v" = Option.none := by decide
example : verNum? "v2147483.648" = Option.none := by decide
example : verNum? "v2147483.647" = some 2147483647 := by decide

/-! ### The sort comparator of `Handlers::llama_cpp` -/

/-- The comparator passed to `vars.sort_by` in `Handlers::llama_cpp`.
`Option.none` models its panics: `CPUCapability::from`'s `unreachable!()` on a
malformed cpu tag, the explicit `unreachable!()` when two non-cpu variants of
differing kinds are compared, and the version-parsing panics of `verNum?`. -/
def cmpVariant? (a b : Variant) : Option Ordering :=
  if a.library = "cpu" ∧ b.library = "cpu" then do
    let ta ← CPUCapability.fromString? a.variant
    let tb ← CPUCapability.fromString? b.variant
    pure (compare ta.rank tb.rank)
  else if a.library = "cpu" ∧ b.library ≠ "cpu" then some Ordering.lt
  else if a.library ≠ "cpu" ∧ b.library = "cpu" then some Ordering.gt
  else if a.library ≠ b.library then Option.none
  else if a.variant = b.variant then some Ordering.eq
  else do
    let x ← verNum? a.variant
    let y ← verNum? b.variant
    pure (compare x y)

/-- Totalised comparator used to run the sort; every theorem about the sort
carries the hypothesis that `cmpVariant?` is defined on all pairs involved,
under which `cmpTotal` agrees with the Rust comparator. -/
def cmpTotal (a b : Variant) : Ordering :=
  (cmpVariant? a b).getD Ordering.eq

/-- Stable insertion of `v` into a sorted list: skip the elements strictly
smaller than `v`. -/
def insertByCmp (v : Variant) : List Variant → List Variant
  | [] => [v]
  | w :: ws =>
    if cmpTotal v w = Ordering.gt then w :: insertByCmp v ws
    else v :: w :: ws

/-- Model of Rust's stable `sort_by` (ascending by the comparator).  A stable
sort's output is uniquely determined by the comparator whenever the comparator
is a total preorder on the list's elements, so insertion sort is a faithful
model on that domain; the claims below only concern such lists. -/
def sortVariants (l : List Variant) : List Variant :=
  l.foldr insertByCmp []

/-- The candidate list `Handlers::llama_cpp` builds for one device: filter the
catalog through `DeviceInfo::variants`, `sort_by` the comparator, then
`reverse`.  `Option.none` models a panic of the filter or of the sort's
comparator; the sort is modelled conservatively as panicking unless the
comparator is defined on every pair of filtered variants. -/
def rankedVariants? (d : DeviceInfo) (c : List Variant) : Option (List Variant) := do
  let vars ← d.variants c
  if vars.all (fun a => vars.all (fun b => (cmpVariant? a b).isSome)) then
    pure (sortVariants vars).reverse
  else Option.none

example : rankedVariants? { library := "cpu", variant := CPUCapability.avx2 }
    [⟨"cpu", ""⟩, ⟨"cpu", "avx2"⟩, ⟨"cpu", "avx"⟩] =
    some [⟨"cpu", "avx2"⟩, ⟨"cpu", "avx"⟩, ⟨"cpu", ""⟩] := by decide

example : rankedVariants? { library := "cuda" }
    [⟨"cpu", ""⟩, ⟨"cuda", "v11.0"⟩, ⟨"cpu", "avx2"⟩, ⟨"cuda", "v12.4"⟩] =
    some [⟨"cuda", "v12.4"⟩, ⟨"cuda", "v11.0"⟩, ⟨"cpu", "avx2"⟩, ⟨"cpu", ""⟩] := by
  decide

example : rankedVariants? { library := "cpu", variant := CPUCapability.avx2 }
    [⟨"cpu", "avx"⟩] = some [⟨"cpu", "avx"⟩] := by decide

/-! ### Errors (`enum Error`, the constructors the selection core produces) -/

/-- The relevant constructors of `enum Error`. -/
inductive Error where
  | CudaNotFound
  | MacParaVirtualDevice
  | DependenciesLoading (errs : List String)
deriving DecidableEq, Repr

/-! ### The library loader of `Handlers::llama_cpp` (lines 372-425)

The loader is embedded relative to a load oracle
`load : String → Except String Nat`: `load p` is the outcome of
`libloading::Library::new(p)` — an opaque handle on success, the loader's
error message on failure.  Paths are strings with `/` separators and the
Linux shared-library file names of the source. -/

/-- Outcome of one `libloading::Library::new` call, decided by the oracle. -/
abbrev Loader := String → Except String Nat

/-- The candidate directory `<base>/<library>` or `<base>/<library>_<variant>`. -/
def variantDir (base : String) (v : Variant) : String :=
  base ++ "/" ++ (if v.variant = "" then v.library else v.library ++ "_" ++ v.variant)

def ggmlPath (base : String) (v : Variant) : String :=
  variantDir base v ++ "/" ++ "libggml.so"

def llamaPath (base : String) (v : Variant) : String :=
  variantDir base v ++ "/" ++ "libllama.so"

def llavaPath (base : String) (v : Variant) : String :=
  variantDir base v ++ "/" ++ "libllava_shared.so"

/-- The error string pushed for a failed load:
`format!("can`t load {}: {}`", path, e)`. -/
def errMsg (p e : String) : String :=
  "can`t load " ++ p ++ ": " ++ e ++ "`"

/-- One candidate attempt: the three libraries in the order ggml, llama,
llava; the first failure aborts with its error string; full success yields
`Ok((llama, llava, ggml))`, in that tuple order as in the source. -/
def tryVariant (load : Loader) (base : String) (v : Variant) :
    Except String (Nat × Nat × Nat) :=
  match load (ggmlPath base v) with
  | Except.error e => Except.error (errMsg (ggmlPath base v) e)
  | Except.ok ggml =>
    match load (llamaPath base v) with
    | Except.error e => Except.error (errMsg (llamaPath base v) e)
    | Except.ok llama =>
      match load (llavaPath base v) with
      | Except.error e => Except.error (errMsg (llavaPath base v) e)
      | Except.ok llava => Except.ok (llama, llava, ggml)

/-- The paths a candidate actually attempts: the prefix of
ggml, llama, llava up to and including the first failure. -/
def attempts (load : Loader) (base : String) (v : Variant) : List String :=
  match load (ggmlPath base v) with
  | Except.error _ => [ggmlPath base v]
  | Except.ok _ =>
    match load (llamaPath base v) with
    | Except.error _ => [ggmlPath base v, llamaPath base v]
    | Except.ok _ => [ggmlPath base v, llamaPath base v, llavaPath base v]

/-- The error message a fully-failing candidate contributes (unused default
when the candidate in fact succeeds). -/
def tryErr (load : Loader) (base : String) (v : Variant) : String :=
  match tryVariant load base v with
  | Except.error m => m
  | Except.ok _ => ""

/-- The inner loop of `Handlers::llama_cpp` over one device's ranked
variants, instrumented with the list of attempted paths.  Returns the triplet
of the first fully-successful candidate (stopping there), the accumulated
error strings, and the attempt trace. -/
def loadVariants (load : Loader) (base : String) :
    List Variant → List String →
    Option (Nat × Nat × Nat) × List String × List String
  | [], errs => (Option.none, errs, [])
  | v :: vs, errs =>
    match tryVariant load base v with
    | Except.ok t => (some t, errs, attempts load base v)
    | Except.error m =>
      let r := loadVariants load base vs (errs ++ [m])
      (r.1, r.2.1, attempts load base v ++ r.2.2)

/-- The outer loop of `Handlers::llama_cpp` over the probed devices, in probe
order; `Option.none` models a panic while ranking a device's variants. -/
def llamaCppGo (load : Loader) (base : String) (catalog : List Variant) :
    List DeviceInfo → List String →
    Option (Except Error (Nat × Nat × Nat) × List String)
  | [], errs => some (Except.error (Error.DependenciesLoading errs), [])
  | d :: ds, errs => do
    let vars ← rankedVariants? d catalog
    let r := loadVariants load base vars errs
    match r.1 with
    | some t => some (Except.ok t, r.2.2)
    | Option.none =>
      (llamaCppGo load base catalog ds r.2.1).map
        (fun res => (res.1, r.2.2 ++ res.2))

/-- `Handlers::llama_cpp`, relative to the load oracle, the dependency base
path, the probed devices and the scanned catalog; paired with the trace of
attempted library paths. -/
def llama_cpp? (load : Loader) (base : String) (devices : List DeviceInfo)
    (catalog : List Variant) :
    Option (Except Error (Nat × Nat × Nat) × List String) :=
  llamaCppGo load base catalog devices []

/-! ### The CUDA probe (`CudaHandles::new`) and strategy choice
(`Handlers::new`), non-Apple path

Each sub-probe is an oracle outcome: `Except String Nat` is the device count
reported by a successful `NvCudaHandle::new` / `CudartHandle::new`, or the
error of a failed one (which the source logs and replaces by count 0). -/

/-- Count extracted from a sub-probe outcome, 0 on failure. -/
def probeCount (r : Except String Nat) : Nat :=
  match r with
  | Except.ok n => n
  | Except.error _ => 0

/-- The device count computed by `CudaHandles::new` from the nvcuda
(driver-level) and cudart (runtime-level) sub-probe outcomes:
`if device_count == 0 { device_count1 } else { device_count }`. -/
def cudaDeviceCount (nvcuda cudart : Except String Nat) : Nat :=
  let d := probeCount nvcuda
  let d1 := probeCount cudart
  if d = 0 then d1 else d

/-- `CudaHandles::new`: succeeds with the device count when it is positive,
otherwise fails with `Error::CudaNotFound`. -/
def CudaHandles.new? (nvcuda cudart : Except String Nat) : Except Error Nat :=
  let dc := cudaDeviceCount nvcuda cudart
  if dc > 0 then Except.ok dc else Except.error Error.CudaNotFound

/-- The backend strategy chosen by `Handlers::new`. -/
inductive Strategy where
  | Cpu
  | Cuda (device_count : Nat)
deriving DecidableEq, Repr

/-- `Handlers::new` on the non-Apple path: use CUDA when `CudaHandles::new`
succeeds, else the always-succeeding CPU handlers. -/
def Handlers.new (nvcuda cudart : Except String Nat) : Strategy :=
  match CudaHandles.new? nvcuda cudart with
  | Except.ok c => Strategy.Cuda c
  | Except.error _ => Strategy.Cpu

/-! ### The catalog scan (`Handlers::available_variants`)

The `glob::glob` call is the oracle: it either fails as a whole
(`PatternError`, the source returns an empty list) or yields a sequence of
entries, each a `GlobError` (skipped by the `if let Ok`) or a matched path.
Of a matched path the source only uses the parent directory's file name — the
component that matched the `*` in `<base>/*/*llama.*`.  The `glob` crate
matches a component by converting it to `str` (`Pattern::matches_path`), so a
matched component is valid UTF-8 and the source's
`into_string().unwrap()` cannot fail on it; the oracle therefore carries the
parent name as a `String`. -/

inductive GlobEntry where
  | err
  | okName (parentName : String)
deriving DecidableEq, Repr

/-- Split of a matched directory name into a `Variant`:
`name.split('_')`, library = first component (always present), variant =
second component or `""` — any further components are dropped. -/
def parseVariantName (name : String) : Variant :=
  match splitOnChar '_' name.toList with
  | [] => ⟨"", ""⟩
  | l :: rest => ⟨String.mk l, String.mk (rest.headD [])⟩

/-- `Handlers::available_variants` relative to the glob oracle. -/
def available_variants (globRes : Except Unit (List GlobEntry)) : List Variant :=
  match globRes with
  | Except.error _ => []
  | Except.ok entries =>
    entries.foldl (fun res e =>
      match e with
      | GlobEntry.err => res
      | GlobEntry.okName name => res ++ [parseVariantName name]) []

example : parseVariantName "cuda_v12.4" = ⟨"cuda", "v12.4"⟩ := by decide
example : parseVariantName "cpu" = ⟨"cpu", ""⟩ := by decide
example : available_variants (Except.ok
    [GlobEntry.okName "cpu_avx2", GlobEntry.err, GlobEntry.okName "cuda_v12.4"]) =
    [⟨"cpu", "avx2"⟩, ⟨"cuda", "v12.4"⟩] := by decide

/-! ### Specification-side matching predicate

`specMatch` transcribes the matching rule as the specification words it
(device kind cpu: variant kind cpu and detected tier at least the tier
required by the tag; otherwise: same kind or cpu), to be compared with the
source-derived `DeviceInfo.variants`. -/

/-- The matching rule as the specification states it. -/
def specMatch (d : DeviceInfo) (v : Variant) : Bool :=
  if d.library = "cpu" then
    decide (v.library = "cpu") &&
      (match CPUCapability.fromString? v.variant with
       | some t => decide (t.rank ≤ d.variant.rank)
       | Option.none => false)
  else decide (d.library = v.library) || decide (v.library = "cpu")

/-! ### Lemmas about the matcher -/

theorem variantMatch_eq_specMatch (d : DeviceInfo) (v : Variant) (keep : Bool)
    (h : d.variantMatch? v = some keep) : keep = specMatch d v := by
  unfold DeviceInfo.variantMatch? at h
  unfold specMatch
  by_cases hd : d.library = "cpu"
  · simp only [hd, if_true] at h ⊢
    by_cases hv : v.library = "cpu"
    · simp only [hv, if_true] at h
      obtain ⟨t, ht, hk⟩ := Option.map_eq_some'.mp h
      simp [hv, ht, hk]
    · simp only [hv, if_false] at h
      cases h
      simp [hv]
  · simp only [hd, if_false] at h ⊢
    cases h
    simp

theorem variants_eq_filter (d : DeviceInfo) :
    ∀ (c : List Variant) (l : List Variant),
    d.variants c = some l → l = c.filter (specMatch d)
  | [], l, h => by
      simp only [DeviceInfo.variants] at h
      cases h
      rfl
  | v :: rest, l, h => by
      have hE : d.variants (v :: rest) =
          Option.bind (d.variantMatch? v) (fun keep =>
            Option.bind (d.variants rest) (fun tail =>
              some (if keep then v :: tail else tail))) := rfl
      rw [hE] at h
      obtain ⟨keep, hk, h2⟩ := Option.bind_eq_some.mp h
      obtain ⟨tail, ht, h3⟩ := Option.bind_eq_some.mp h2
      have h4 := Option.some.inj h3
      have htail := variants_eq_filter d rest tail ht
      have hkeep := variantMatch_eq_specMatch d v keep hk
      rw [← h4, List.filter_cons, ← hkeep, ← htail]

theorem mem_variants {d : DeviceInfo} {c l : List Variant} {v : Variant}
    (h : d.variants c = some l) (hv : v ∈ l) :
    v ∈ c ∧ specMatch d v = true := by
  rw [variants_eq_filter d c l h] at hv
  exact ⟨List.mem_of_mem_filter hv, List.of_mem_filter hv⟩

/-- Every variant the matcher keeps for a device has the device's own library
kind or the cpu kind. -/
theorem mem_variants_library {d : DeviceInfo} {c l : List Variant} {v : Variant}
    (h : d.variants c = some l) (hv : v ∈ l) :
    v.library = "cpu" ∨ v.library = d.library := by
  have hs := (mem_variants h hv).2
  unfold specMatch at hs
  by_cases hd : d.library = "cpu"
  · simp only [hd, if_true, Bool.and_eq_true, decide_eq_true_eq] at hs
    exact Or.inl hs.1
  · simp only [hd, if_false, Bool.or_eq_true, decide_eq_true_eq] at hs
    rcases hs with h1 | h1
    · exact Or.inr h1.symm
    · exact Or.inl h1

/-! ### A numeric ranking key realising the comparator

On every candidate set the matcher can produce (one library kind plus cpu
fallbacks), the comparator coincides with comparing `rankKey`: cpu variants
map to their capability rank (0, 1 or 2) and non-cpu variants to a large
offset plus their parsed version value, which given the `i32` range of the
components always exceeds any cpu key. -/

def rankKey (v : Variant) : Int :=
  if v.library = "cpu" then
    ((CPUCapability.fromString? v.variant).map CPUCapability.rank).getD 0
  else 100000000000000 + (verNum? v.variant).getD 0

theorem parseI32_bound {s : List Char} {n : Int} (h : parseI32? s = some n) :
    -2147483648 ≤ n ∧ n ≤ 2147483647 := by
  unfold parseI32? at h
  split at h
  · cases h
  next c rest =>
    split at h
    · obtain ⟨m, _, hif⟩ := Option.bind_eq_some.mp h
      split at hif
      · cases hif; omega
      · cases hif
    · split at h
      · obtain ⟨m, _, hif⟩ := Option.bind_eq_some.mp h
        split at hif
        · cases hif; omega
        · cases hif
      · obtain ⟨m, _, hif⟩ := Option.bind_eq_some.mp h
        split at hif
        · cases hif; omega
        · cases hif

theorem verNum_bound {t : String} {x : Int} (h : verNum? t = some x) :
    -3000000000000 ≤ x ∧ x ≤ 3000000000000 := by
  unfold verNum? at h
  split at h
  · cases h
  next c rest =>
    split at h
    · cases h
    · split at h
      · cases h
      next a =>
        obtain ⟨xa, _, hif⟩ := Option.bind_eq_some.mp h
        split at hif
        next hr => cases hif; omega
        · cases hif
      next a b t2 =>
        obtain ⟨xa, _, h2⟩ := Option.bind_eq_some.mp h
        obtain ⟨xb, _, h3⟩ := Option.bind_eq_some.mp h2
        split at h3
        next hr1 =>
          split at h3
          next hr2 => cases h3; omega
          · cases h3
        · cases h3

theorem rankKey_cpu_le {v : Variant} (h : v.library = "cpu") : rankKey v ≤ 2 := by
  unfold rankKey
  rw [if_pos h]
  cases hf : CPUCapability.fromString? v.variant with
  | none => simp
  | some t => cases t <;> simp [CPUCapability.rank]

theorem rankKey_cpu_val {v : Variant} {t : CPUCapability} (h : v.library = "cpu")
    (hf : CPUCapability.fromString? v.variant = some t) : rankKey v = t.rank := by
  unfold rankKey
  rw [if_pos h, hf]
  rfl

theorem rankKey_noncpu_gt {v : Variant} (h : v.library ≠ "cpu") : 2 < rankKey v := by
  unfold rankKey
  rw [if_neg h]
  cases hf : verNum? v.variant with
  | none => norm_num
  | some x =>
    have := verNum_bound hf
    simp only [Option.getD_some]
    omega

theorem compare_int_add_left (c x y : Int) : compare (c + x) (c + y) = compare x y := by
  rcases lt_trichotomy x y with h | h | h
  · rw [compare_lt_iff_lt.mpr h, compare_lt_iff_lt.mpr (by omega)]
  · rw [compare_eq_iff_eq.mpr h, compare_eq_iff_eq.mpr (by omega)]
  · rw [compare_gt_iff_gt.mpr h, compare_gt_iff_gt.mpr (by omega)]

/-- Wherever the Rust comparator is defined, its result is the comparison of
the ranking keys — provided the two variants do not mix two distinct non-cpu
kinds (the matcher guarantees this within one device's set). -/
theorem cmp_eq_compare_rankKey {a b : Variant}
    (hsame : a.library ≠ "cpu" → b.library ≠ "cpu" → a.library = b.library)
    {o : Ordering} (h : cmpVariant? a b = some o) :
    o = compare (rankKey a) (rankKey b) := by
  unfold cmpVariant? at h
  by_cases h1 : a.library = "cpu" ∧ b.library = "cpu"
  · rw [if_pos h1] at h
    obtain ⟨ta, hta, h2⟩ := Option.bind_eq_some.mp h
    obtain ⟨tb, htb, h3⟩ := Option.bind_eq_some.mp h2
    cases h3
    rw [rankKey_cpu_val h1.1 hta, rankKey_cpu_val h1.2 htb]
  · rw [if_neg h1] at h
    by_cases h2 : a.library = "cpu" ∧ b.library ≠ "cpu"
    · rw [if_pos h2] at h
      cases h
      have ha := rankKey_cpu_le h2.1
      have hb := rankKey_noncpu_gt h2.2
      exact (compare_lt_iff_lt.mpr (by omega)).symm
    · rw [if_neg h2] at h
      by_cases h3 : a.library ≠ "cpu" ∧ b.library = "cpu"
      · rw [if_pos h3] at h
        cases h
        have ha := rankKey_noncpu_gt h3.1
        have hb := rankKey_cpu_le h3.2
        exact (compare_gt_iff_gt.mpr (by omega)).symm
      · rw [if_neg h3] at h
        have hacpu : a.library ≠ "cpu" := by
          intro hac
          by_cases hbc : b.library = "cpu"
          · exact h1 ⟨hac, hbc⟩
          · exact h2 ⟨hac, hbc⟩
        have hbcpu : b.library ≠ "cpu" := fun hbc => h3 ⟨hacpu, hbc⟩
        have hlib := hsame hacpu hbcpu
        rw [if_neg (fun hne => hne hlib)] at h
        by_cases hvar : a.variant = b.variant
        · rw [if_pos hvar] at h
          cases h
          have hk : rankKey a = rankKey b := by
            unfold rankKey
            rw [if_neg hacpu, if_neg hbcpu, hvar]
          rw [compare_eq_iff_eq.mpr hk]
        · rw [if_neg hvar] at h
          obtain ⟨x, hx, h4⟩ := Option.bind_eq_some.mp h
          obtain ⟨y, hy, h5⟩ := Option.bind_eq_some.mp h4
          cases h5
          have hka : rankKey a = 100000000000000 + x := by
            unfold rankKey
            rw [if_neg hacpu, hx]
            rfl
          have hkb : rankKey b = 100000000000000 + y := by
            unfold rankKey
            rw [if_neg hbcpu, hy]
            rfl
          rw [hka, hkb, compare_int_add_left]

/-! ### Sorting lemmas -/

theorem mem_insertByCmp {x v : Variant} :
    ∀ {l : List Variant}, x ∈ insertByCmp v l ↔ x = v ∨ x ∈ l
  | [] => by simp [insertByCmp]
  | w :: ws => by
    unfold insertByCmp
    by_cases hgt : cmpTotal v w = Ordering.gt
    · rw [if_pos hgt]
      simp only [List.mem_cons, mem_insertByCmp (l := ws)]
      tauto
    · rw [if_neg hgt]
      simp only [List.mem_cons]

theorem mem_sortVariants {x : Variant} :
    ∀ {l : List Variant}, x ∈ sortVariants l ↔ x ∈ l
  | [] => Iff.rfl
  | v :: vs => by
    show x ∈ insertByCmp v (sortVariants vs) ↔ _
    rw [mem_insertByCmp, mem_sortVariants (l := vs)]
    simp

theorem pairwise_insertByCmp (v : Variant) :
    ∀ (l : List Variant),
    (∀ b ∈ l, cmpTotal v b = compare (rankKey v) (rankKey b)) →
    List.Pairwise (fun a b => rankKey a ≤ rankKey b) l →
    List.Pairwise (fun a b => rankKey a ≤ rankKey b) (insertByCmp v l)
  | [], _, _ => by simp [insertByCmp]
  | w :: ws, hcmp, hs => by
    rw [List.pairwise_cons] at hs
    obtain ⟨hw, hws⟩ := hs
    unfold insertByCmp
    by_cases hgt : cmpTotal v w = Ordering.gt
    · rw [if_pos hgt]
      have hkw : rankKey w < rankKey v := by
        have := hcmp w (List.mem_cons_self w ws)
        rw [this] at hgt
        exact compare_gt_iff_gt.mp hgt
      rw [List.pairwise_cons]
      refine ⟨?_, pairwise_insertByCmp v ws
        (fun b hb => hcmp b (List.mem_cons_of_mem w hb)) hws⟩
      intro b hb
      rcases mem_insertByCmp.mp hb with rfl | hb'
      · exact le_of_lt hkw
      · exact hw b hb'
    · rw [if_neg hgt]
      have hvw : rankKey v ≤ rankKey w := by
        by_contra hlt
        exact hgt (by
          rw [hcmp w (List.mem_cons_self w ws)]
          exact compare_gt_iff_gt.mpr (lt_of_not_le hlt))
      rw [List.pairwise_cons]
      refine ⟨?_, List.pairwise_cons.mpr ⟨hw, hws⟩⟩
      intro b hb
      rcases List.mem_cons.mp hb with rfl | hb'
      · exact hvw
      · exact le_trans hvw (hw b hb')

theorem pairwise_sortVariants :
    ∀ (l : List Variant),
    (∀ a ∈ l, ∀ b ∈ l, cmpTotal a b = compare (rankKey a) (rankKey b)) →
    List.Pairwise (fun a b => rankKey a ≤ rankKey b) (sortVariants l)
  | [], _ => List.Pairwise.nil
  | v :: vs, hcmp => by
    show List.Pairwise _ (insertByCmp v (sortVariants vs))
    apply pairwise_insertByCmp
    · intro b hb
      exact hcmp v (List.mem_cons_self v vs) b
        (List.mem_cons_of_mem v (mem_sortVariants.mp hb))
    · exact pairwise_sortVariants vs (fun a ha b hb =>
        hcmp a (List.mem_cons_of_mem v ha) b (List.mem_cons_of_mem v hb))

/-! ### Structure of a device's ranked candidate list -/

/-- Unfolding of a successful `rankedVariants?`: the filtered set, the
membership equivalence, and descending sortedness of the ranking key along
the final (reversed) try order. -/
theorem ranked_structure {d : DeviceInfo} {c r : List Variant}
    (h : rankedVariants? d c = some r) :
    ∃ vars, d.variants c = some vars ∧
      r = (sortVariants vars).reverse ∧
      (∀ x, x ∈ r ↔ x ∈ vars) ∧
      List.Pairwise (fun a b => rankKey b ≤ rankKey a) r := by
  unfold rankedVariants? at h
  obtain ⟨vars, hv, h2⟩ := Option.bind_eq_some.mp h
  refine ⟨vars, hv, ?_⟩
  split at h2
  case isFalse => cases h2
  case isTrue hall =>
    cases h2
    have hdef : ∀ a ∈ vars, ∀ b ∈ vars, (cmpVariant? a b).isSome = true := by
      intro a ha b hb
      have := List.all_eq_true.mp hall a ha
      exact List.all_eq_true.mp this b hb
    have hsame : ∀ a ∈ vars, ∀ b ∈ vars,
        a.library ≠ "cpu" → b.library ≠ "cpu" → a.library = b.library := by
      intro a ha b hb hna hnb
      rcases mem_variants_library hv ha with h1 | h1
      · exact absurd h1 hna
      · rcases mem_variants_library hv hb with h2 | h2
        · exact absurd h2 hnb
        · rw [h1, h2]
    have hcmp : ∀ a ∈ vars, ∀ b ∈ vars,
        cmpTotal a b = compare (rankKey a) (rankKey b) := by
      intro a ha b hb
      obtain ⟨o, ho⟩ := Option.isSome_iff_exists.mp (hdef a ha b hb)
      rw [show cmpTotal a b = o from by rw [cmpTotal, ho]; rfl]
      exact cmp_eq_compare_rankKey (hsame a ha b hb) ho
    refine ⟨rfl, ?_, ?_⟩
    · intro x
      rw [List.mem_reverse]
      exact mem_sortVariants
    · rw [List.pairwise_reverse]
      exact pairwise_sortVariants vars hcmp

/-! ### Helper facts about `specMatch` -/

theorem specMatch_cpu {d : DeviceInfo} {v : Variant} (hd : d.library = "cpu")
    (hs : specMatch d v = true) :
    v.library = "cpu" ∧ ∃ t, CPUCapability.fromString? v.variant = some t ∧
      t.rank ≤ d.variant.rank := by
  unfold specMatch at hs
  rw [if_pos hd, Bool.and_eq_true] at hs
  obtain ⟨h1, h2⟩ := hs
  refine ⟨of_decide_eq_true h1, ?_⟩
  cases hf : CPUCapability.fromString? v.variant with
  | none => rw [hf] at h2; cases h2
  | some t =>
    rw [hf] at h2
    exact ⟨t, rfl, of_decide_eq_true h2⟩

theorem specMatch_noncpu_cpu {d : DeviceInfo} {v : Variant} (hd : d.library ≠ "cpu")
    (hv : v.library = "cpu") : specMatch d v = true := by
  unfold specMatch
  rw [if_neg hd]
  simp [hv]

/-! ### Shared concrete fixtures for the witnesses -/

def cpuAvx2Host : DeviceInfo := { library := "cpu", variant := CPUCapability.avx2 }

def cudaHost : DeviceInfo := { library := "cuda" }

/-! ### Claim C1 -/

/-- C1: For every detected device and every catalog on which the matcher does
not panic, the filtered set `DeviceInfo::variants` contains exactly the
catalog variants satisfying the matching rule: for a cpu device, a variant
matches iff its kind is cpu and the device's detected tier is at least the
tier required by the variant's tag; for a non-cpu device, iff its kind equals
the device kind or is cpu (`specMatch`). -/
theorem c1_matcher_filter (d : DeviceInfo) (c l : List Variant)
    (h : d.variants c = some l) : l = c.filter (specMatch d) :=
  variants_eq_filter d c l h

theorem c1_matcher_filter_witness :
    ([⟨"cpu", "avx"⟩, ⟨"cpu", "avx2"⟩] : List Variant) =
      ([⟨"cpu", "avx"⟩, ⟨"cuda", "v12.4"⟩, ⟨"cpu", "avx2"⟩] : List Variant).filter
        (specMatch cpuAvx2Host) :=
  c1_matcher_filter cpuAvx2Host _ _ (by decide)

/-! ### Claim C2 -/

/-- C2: For a cpu device, no variant requiring a tier above the detected tier
ever appears in the ranked output, and the first element of the final try
order requires the highest tier among those present; in particular a host
detected at avx2 with only a `cpu_avx` variant available still selects
`cpu_avx`. -/
theorem c2_cpu_tier_order :
    (∀ (d : DeviceInfo) (c r : List Variant), d.library = "cpu" →
      rankedVariants? d c = some r →
      (∀ v ∈ r, v.library = "cpu" ∧ ∃ t, CPUCapability.fromString? v.variant = some t ∧
        t.rank ≤ d.variant.rank)
      ∧ (∀ v0 rest, r = v0 :: rest → ∀ v ∈ r, ∀ t t0,
          CPUCapability.fromString? v.variant = some t →
          CPUCapability.fromString? v0.variant = some t0 →
          t.rank ≤ t0.rank))
    ∧ rankedVariants? { library := "cpu", variant := CPUCapability.avx2 }
        [⟨"cpu", "avx"⟩] = some [⟨"cpu", "avx"⟩] := by
  constructor
  · intro d c r hd h
    obtain ⟨vars, hv, _, hmem, hpw⟩ := ranked_structure h
    have hmemprop : ∀ v ∈ r, v.library = "cpu" ∧
        ∃ t, CPUCapability.fromString? v.variant = some t ∧
          t.rank ≤ d.variant.rank := by
      intro v hvr
      exact specMatch_cpu hd (mem_variants hv ((hmem v).mp hvr)).2
    refine ⟨hmemprop, ?_⟩
    intro v0 rest hr v hvr t t0 ht ht0
    have hkey : rankKey v ≤ rankKey v0 := by
      subst hr
      rcases List.mem_cons.mp hvr with rfl | hvrest
      · exact le_refl _
      · exact (List.pairwise_cons.mp hpw).1 v hvrest
    have hv0cpu : v0.library = "cpu" :=
      (hmemprop v0 (by rw [hr]; exact List.mem_cons_self v0 rest)).1
    have hvcpu : v.library = "cpu" := (hmemprop v hvr).1
    rw [rankKey_cpu_val hvcpu ht, rankKey_cpu_val hv0cpu ht0] at hkey
    exact hkey
  · decide

theorem c2_cpu_tier_order_witness :
    ((⟨"cpu", "avx2"⟩ : Variant).library = "cpu" ∧
      ∃ t, CPUCapability.fromString? "avx2" = some t ∧
        t.rank ≤ CPUCapability.avx2.rank) :=
  (c2_cpu_tier_order.1 cpuAvx2Host
      [⟨"cpu", ""⟩, ⟨"cpu", "avx2"⟩, ⟨"cpu", "avx"⟩]
      [⟨"cpu", "avx2"⟩, ⟨"cpu", "avx"⟩, ⟨"cpu", ""⟩]
      (by decide) (by decide)).1
    ⟨"cpu", "avx2"⟩ (by decide)

/-! ### Claim C3 -/

/-- C3: For a non-cpu (GPU-class) device, every cpu-kind variant of the
catalog is in the candidate set, and in the final reversed try order a cpu
variant never precedes a non-cpu variant — every cpu variant comes strictly
after every native one. -/
theorem c3_gpu_cpu_fallback (d : DeviceInfo) (c r : List Variant)
    (hd : d.library ≠ "cpu") (h : rankedVariants? d c = some r) :
    (∀ v ∈ c, v.library = "cpu" → v ∈ r)
    ∧ List.Pairwise (fun a b => a.library = "cpu" → b.library = "cpu") r := by
  obtain ⟨vars, hv, _, hmem, hpw⟩ := ranked_structure h
  constructor
  · intro v hvc hvcpu
    apply (hmem v).mpr
    rw [variants_eq_filter d c vars hv]
    exact List.mem_filter.mpr ⟨hvc, specMatch_noncpu_cpu hd hvcpu⟩
  · refine List.Pairwise.imp ?_ hpw
    intro a b hab
    intro hacpu
    by_contra hbn
    have h1 := rankKey_cpu_le hacpu
    have h2 := rankKey_noncpu_gt hbn
    omega

theorem c3_gpu_cpu_fallback_witness :
    (⟨"cpu", ""⟩ : Variant) ∈
      ([⟨"cuda", "v12.4"⟩, ⟨"cpu", "avx2"⟩, ⟨"cpu", ""⟩] : List Variant) :=
  (c3_gpu_cpu_fallback cudaHost
      [⟨"cpu", ""⟩, ⟨"cuda", "v12.4"⟩, ⟨"cpu", "avx2"⟩]
      [⟨"cuda", "v12.4"⟩, ⟨"cpu", "avx2"⟩, ⟨"cpu", ""⟩]
      (by decide) (by decide)).1
    ⟨"cpu", ""⟩ (by decide) (by decide)

/-! ### Claim C4 -/

/-- C4: Within one device's candidate set, two same-kind non-cpu variants with
distinct tags are ordered by comparing their parsed `v<major>.<minor>` values
`major * 1000 + minor` (missing minor defaults to 0); two equal tag strings
compare equal; concretely `v12.4 > v11.0 > v2.1`.  The hypotheses
`verNum? _ = some _` confine the statement to tags whose combined value stays
in the `i32` range, where the source's `i32` arithmetic computes exactly this
integer in both build modes; outside it the source overflows (debug panic or
release wrap), which the model marks `Option.none`. -/
theorem c4_version_ordering :
    (∀ a b : Variant, a.library ≠ "cpu" → b.library ≠ "cpu" → a.library = b.library →
      a.variant ≠ b.variant → ∀ x y, verNum? a.variant = some x →
      verNum? b.variant = some y → cmpVariant? a b = some (compare x y))
    ∧ (∀ a b : Variant, a.library ≠ "cpu" → a.library = b.library →
        a.variant = b.variant → cmpVariant? a b = some Ordering.eq)
    ∧ verNum? "v12.4" = some 12004 ∧ verNum? "v11.0" = some 11000
    ∧ verNum? "v2.1" = some 2001 ∧ verNum? "v12" = some 12000
    ∧ cmpVariant? ⟨"cuda", "v12.4"⟩ ⟨"cuda", "v11.0"⟩ = some Ordering.gt
    ∧ cmpVariant? ⟨"cuda", "v11.0"⟩ ⟨"cuda", "v2.1"⟩ = some Ordering.gt := by
  refine ⟨?_, ?_, by decide, by decide, by decide, by decide, by decide, by decide⟩
  · intro a b hna hnb hlib hvar x y hx hy
    unfold cmpVariant?
    rw [if_neg (fun hc => hna hc.1), if_neg (fun hc => hna hc.1),
      if_neg (fun hc => hnb hc.2), if_neg (fun hc => hc hlib), if_neg hvar,
      hx, hy]
    rfl
  · intro a b hna hlib hvar
    have hnb : b.library ≠ "cpu" := by rw [← hlib]; exact hna
    unfold cmpVariant?
    rw [if_neg (fun hc => hna hc.1), if_neg (fun hc => hna hc.1),
      if_neg (fun hc => hnb hc.2), if_neg (fun hc => hc hlib), if_pos hvar]

theorem c4_version_ordering_witness :
    cmpVariant? ⟨"cuda", "v12.4"⟩ ⟨"cuda", "v2.1"⟩ = some (compare 12004 2001) :=
  c4_version_ordering.1 ⟨"cuda", "v12.4"⟩ ⟨"cuda", "v2.1"⟩
    (by decide) (by decide) rfl (by decide) 12004 2001 (by decide) (by decide)

/-! ### Claim C9 -/

/-- C9: A single device's filtered set never mixes two non-cpu variants of
differing kinds, so the comparator's differing-kinds branch is never reached
on matcher-produced input; reaching it hits `unreachable!()` — an explicit
panic (modelled `Option.none`), not silent progress. -/
theorem c9_no_mixed_kinds :
    (∀ (d : DeviceInfo) (c l : List Variant), d.variants c = some l →
      ∀ a ∈ l, ∀ b ∈ l, a.library ≠ "cpu" → b.library ≠ "cpu" →
        a.library = b.library)
    ∧ (∀ a b : Variant, a.library ≠ "cpu" → b.library ≠ "cpu" →
        a.library ≠ b.library → cmpVariant? a b = Option.none) := by
  constructor
  · intro d c l h a ha b hb hna hnb
    rcases mem_variants_library h ha with h1 | h1
    · exact absurd h1 hna
    · rcases mem_variants_library h hb with h2 | h2
      · exact absurd h2 hnb
      · rw [h1, h2]
  · intro a b hna hnb hne
    unfold cmpVariant?
    rw [if_neg (fun hc => hna hc.1), if_neg (fun hc => hna hc.1),
      if_neg (fun hc => hnb hc.2), if_pos hne]

theorem c9_no_mixed_kinds_witness :
    cmpVariant? ⟨"cuda", "v12.4"⟩ ⟨"rocm", "v1.0"⟩ = Option.none :=
  c9_no_mixed_kinds.2 ⟨"cuda", "v12.4"⟩ ⟨"rocm", "v1.0"⟩
    (by decide) (by decide) (by decide)

/-! ### Claim C5 -/

/-- A concrete load oracle for the witnesses: only the cpu candidate's ggml
and llama libraries load. -/
def demoLoad : Loader := fun p =>
  if p = "base/cpu/libggml.so" then Except.ok 1
  else if p = "base/cpu/libllama.so" then Except.ok 2
  else Except.error "not found"

/-- C5: Each candidate attempts its three libraries strictly in the order
ggml, llama, llava (the attempt list is a non-empty prefix of that
sequence); a failure yields exactly the error string built from the failing
path and the loader's error, after which the loop records it and moves to the
next candidate; full success returns the triplet of loaded handles
immediately, attempting nothing further. -/
theorem c5_loader_sequence (load : Loader) (base : String) (v : Variant) :
    (∃ k, 1 ≤ k ∧ k ≤ 3 ∧ attempts load base v =
      ([ggmlPath base v, llamaPath base v, llavaPath base v]).take k)
    ∧ (∀ m, tryVariant load base v = Except.error m →
        ∃ p e, p ∈ [ggmlPath base v, llamaPath base v, llavaPath base v] ∧
          load p = Except.error e ∧ m = errMsg p e)
    ∧ (∀ t, tryVariant load base v = Except.ok t →
        ∃ g l lv, load (ggmlPath base v) = Except.ok g ∧
          load (llamaPath base v) = Except.ok l ∧
          load (llavaPath base v) = Except.ok lv ∧ t = (l, lv, g))
    ∧ (∀ t vs errs, tryVariant load base v = Except.ok t →
        loadVariants load base (v :: vs) errs = (some t, errs, attempts load base v))
    ∧ (∀ m vs errs, tryVariant load base v = Except.error m →
        loadVariants load base (v :: vs) errs =
          ((loadVariants load base vs (errs ++ [m])).1,
           (loadVariants load base vs (errs ++ [m])).2.1,
           attempts load base v ++ (loadVariants load base vs (errs ++ [m])).2.2)) := by
  refine ⟨?_, ?_, ?_, ?_, ?_⟩
  · unfold attempts
    cases hg : load (ggmlPath base v) with
    | error e => exact ⟨1, by simp⟩
    | ok g =>
      cases hl : load (llamaPath base v) with
      | error e => exact ⟨2, by simp⟩
      | ok l =>
        cases hv : load (llavaPath base v) with
        | error e => exact ⟨3, by simp⟩
        | ok lv => exact ⟨3, by simp⟩
  · intro m hm
    unfold tryVariant at hm
    cases hg : load (ggmlPath base v) with
    | error e =>
      rw [hg] at hm
      cases hm
      exact ⟨ggmlPath base v, e, by simp, hg, rfl⟩
    | ok g =>
      rw [hg] at hm
      cases hl : load (llamaPath base v) with
      | error e =>
        rw [hl] at hm
        cases hm
        exact ⟨llamaPath base v, e, by simp, hl, rfl⟩
      | ok l =>
        rw [hl] at hm
        cases hv : load (llavaPath base v) with
        | error e =>
          rw [hv] at hm
          cases hm
          exact ⟨llavaPath base v, e, by simp, hv, rfl⟩
        | ok lv => rw [hv] at hm; cases hm
  · intro t ht
    unfold tryVariant at ht
    cases hg : load (ggmlPath base v) with
    | error e => rw [hg] at ht; cases ht
    | ok g =>
      rw [hg] at ht
      cases hl : load (llamaPath base v) with
      | error e => rw [hl] at ht; cases ht
      | ok l =>
        rw [hl] at ht
        cases hv : load (llavaPath base v) with
        | error e => rw [hv] at ht; cases ht
        | ok lv =>
          rw [hv] at ht
          cases ht
          exact ⟨g, l, lv, rfl, rfl, rfl, rfl⟩
  · intro t vs errs ht
    have hE : loadVariants load base (v :: vs) errs =
        match tryVariant load base v with
        | Except.ok t => (some t, errs, attempts load base v)
        | Except.error m =>
          let r := loadVariants load base vs (errs ++ [m])
          (r.1, r.2.1, attempts load base v ++ r.2.2) := rfl
    rw [hE, ht]
  · intro m vs errs hm
    have hE : loadVariants load base (v :: vs) errs =
        match tryVariant load base v with
        | Except.ok t => (some t, errs, attempts load base v)
        | Except.error m =>
          let r := loadVariants load base vs (errs ++ [m])
          (r.1, r.2.1, attempts load base v ++ r.2.2) := rfl
    rw [hE, hm]

theorem c5_loader_sequence_witness :
    ∃ p e, p ∈ [ggmlPath "base" ⟨"cpu", ""⟩, llamaPath "base" ⟨"cpu", ""⟩,
        llavaPath "base" ⟨"cpu", ""⟩] ∧
      demoLoad p = Except.error e ∧
      errMsg "base/cpu/libllava_shared.so" "not found" = errMsg p e :=
  (c5_loader_sequence demoLoad "base" ⟨"cpu", ""⟩).2.1
    (errMsg "base/cpu/libllava_shared.so" "not found") (by rfl)

/-! ### Claim C6 -/

/-- The per-device ranked candidate lists built by the selection loop. -/
def candidateLists? (catalog : List Variant) : List DeviceInfo → Option (List (List Variant))
  | [] => some []
  | d :: ds => do
      let r ← rankedVariants? d catalog
      let rs ← candidateLists? catalog ds
      pure (r :: rs)

theorem loadVariants_all_fail (load : Loader) (base : String) :
    ∀ (vs : List Variant) (errs : List String),
    (∀ v ∈ vs, ∃ m, tryVariant load base v = Except.error m) →
    loadVariants load base vs errs =
      (Option.none, errs ++ vs.map (tryErr load base),
        (vs.map (attempts load base)).flatten)
  | [], errs, _ => by simp [loadVariants]
  | v :: vs, errs, hfail => by
    obtain ⟨m, hm⟩ := hfail v (List.mem_cons_self v vs)
    have hrest := loadVariants_all_fail load base vs (errs ++ [m])
      (fun w hw => hfail w (List.mem_cons_of_mem v hw))
    have htryErr : tryErr load base v = m := by
      unfold tryErr
      rw [hm]
    have hE : loadVariants load base (v :: vs) errs =
        match tryVariant load base v with
        | Except.ok t => (some t, errs, attempts load base v)
        | Except.error m =>
          let r := loadVariants load base vs (errs ++ [m])
          (r.1, r.2.1, attempts load base v ++ r.2.2) := rfl
    rw [hE, hm]
    simp only [hrest]
    simp [htryErr, List.append_assoc]

theorem llamaCppGo_all_fail (load : Loader) (base : String) (catalog : List Variant) :
    ∀ (devices : List DeviceInfo) (errs : List String)
      (rls : List (List Variant)),
    candidateLists? catalog devices = some rls →
    (∀ v ∈ rls.flatten, ∃ m, tryVariant load base v = Except.error m) →
    ∃ tr, llamaCppGo load base catalog devices errs =
      some (Except.error (Error.DependenciesLoading
        (errs ++ rls.flatten.map (tryErr load base))), tr)
  | [], errs, rls, hcl, _ => by
    cases hcl
    exact ⟨[], by simp [llamaCppGo]⟩
  | d :: ds, errs, rls, hcl, hfail => by
    have hE : candidateLists? catalog (d :: ds) =
        Option.bind (rankedVariants? d catalog) (fun r =>
          Option.bind (candidateLists? catalog ds) (fun rs =>
            some (r :: rs))) := rfl
    rw [hE] at hcl
    obtain ⟨r0, hr0, h2⟩ := Option.bind_eq_some.mp hcl
    obtain ⟨rs, hrs, h3⟩ := Option.bind_eq_some.mp h2
    cases h3
    have hfail0 : ∀ v ∈ r0, ∃ m, tryVariant load base v = Except.error m := by
      intro v hv
      refine hfail v ?_
      rw [List.flatten_cons]
      exact List.mem_append.mpr (Or.inl hv)
    have hfail1 : ∀ v ∈ rs.flatten, ∃ m, tryVariant load base v = Except.error m := by
      intro v hv
      refine hfail v ?_
      rw [List.flatten_cons]
      exact List.mem_append.mpr (Or.inr hv)
    have hlv := loadVariants_all_fail load base r0 errs hfail0
    obtain ⟨tr', hrec⟩ := llamaCppGo_all_fail load base catalog ds
      (errs ++ r0.map (tryErr load base)) rs hrs hfail1
    refine ⟨(r0.map (attempts load base)).flatten ++ tr', ?_⟩
    have hE2 : llamaCppGo load base catalog (d :: ds) errs =
        Option.bind (rankedVariants? d catalog) (fun vars =>
          let res := loadVariants load base vars errs
          match res.1 with
          | some t => some (Except.ok t, res.2.2)
          | Option.none =>
            (llamaCppGo load base catalog ds res.2.1).map
              (fun p => (p.1, res.2.2 ++ p.2))) := rfl
    rw [hE2, hr0, Option.some_bind]
    simp only [hlv, hrec, Option.map_some']
    rw [List.flatten_cons, List.map_append, List.append_assoc]

/-- C6: When no candidate succeeds, `Handlers::llama_cpp` returns
`Error::DependenciesLoading` carrying exactly one error string per failed
candidate (each candidate contributes exactly one failed load attempt, whose
message records the attempted path and the loader error); with an empty
catalog the candidate set of every device is empty and the aggregate error
carries the empty list. -/
theorem c6_exhaustion_aggregate (load : Loader) (base : String) :
    (∀ (devices : List DeviceInfo) (catalog : List Variant)
        (rls : List (List Variant)),
      candidateLists? catalog devices = some rls →
      (∀ v ∈ rls.flatten, ∃ m, tryVariant load base v = Except.error m) →
      ∃ tr, llama_cpp? load base devices catalog =
        some (Except.error (Error.DependenciesLoading
          (rls.flatten.map (tryErr load base))), tr))
    ∧ (∀ devices : List DeviceInfo,
        llama_cpp? load base devices [] =
          some (Except.error (Error.DependenciesLoading []), [])) := by
  constructor
  · intro devices catalog rls hcl hfail
    obtain ⟨tr, htr⟩ := llamaCppGo_all_fail load base catalog devices [] rls hcl hfail
    exact ⟨tr, by simpa [llama_cpp?] using htr⟩
  · intro devices
    induction devices with
    | nil => rfl
    | cons d ds ih =>
      have ih' : llamaCppGo load base [] ds [] =
          some (Except.error (Error.DependenciesLoading []), []) := ih
      show (llamaCppGo load base [] ds []).map
          (fun p => (p.1, (loadVariants load base [] []).2.2 ++ p.2)) =
        some (Except.error (Error.DependenciesLoading []), [])
      rw [ih']
      rfl

/-- A load oracle on which every load attempt fails. -/
def failLoad : Loader := fun _ => Except.error "missing"

theorem c6_exhaustion_aggregate_witness :
    ∃ tr, llama_cpp? failLoad "base" [cudaHost] [⟨"cuda", "v12.4"⟩] =
      some (Except.error (Error.DependenciesLoading
        (([[(⟨"cuda", "v12.4"⟩ : Variant)]] : List (List Variant)).flatten.map
          (tryErr failLoad "base"))), tr) :=
  (c6_exhaustion_aggregate failLoad "base").1 [cudaHost] [⟨"cuda", "v12.4"⟩]
    [[⟨"cuda", "v12.4"⟩]] (by decide)
    (by
      intro v hv
      have hveq : v = ⟨"cuda", "v12.4"⟩ := by simpa using hv
      subst hveq
      exact ⟨errMsg (ggmlPath "base" ⟨"cuda", "v12.4"⟩) "missing", rfl⟩)

/-! ### Claim C7 -/

/-- C7 counterexample: with the driver-level probe reporting 1 device and the
runtime-level probe reporting 4, the code's device count is 1, not the
maximum 4 — `CudaHandles::new` keeps the nvcuda count whenever it is nonzero
and only falls back to the cudart count when the nvcuda count is zero. -/
theorem c7_max_counterexample :
    cudaDeviceCount (Except.ok 1 : Except String Nat) (Except.ok 4) = 1 ∧
    max (probeCount (Except.ok 1 : Except String Nat)) (probeCount
      (Except.ok 4 : Except String Nat)) = 4 ∧
    cudaDeviceCount (Except.ok 1 : Except String Nat) (Except.ok 4) ≠
      max (probeCount (Except.ok 1 : Except String Nat))
        (probeCount (Except.ok 4 : Except String Nat)) := by
  refine ⟨rfl, rfl, ?_⟩
  intro h
  simp [cudaDeviceCount, probeCount] at h

/-- C7 (amended): the probed device count equals the driver-level (nvcuda)
count when that is nonzero, otherwise the runtime-level (cudart) count; each
sub-probe may fail (counting as zero) without blocking the other; when the
resulting count is zero the GPU strategy fails (`CudaHandles::new` returns
`Error::CudaNotFound`) and the CPU strategy is used, otherwise the CUDA
strategy is chosen. -/
theorem c7_device_count_fallback (nvcuda cudart : Except String Nat) :
    cudaDeviceCount nvcuda cudart =
      (if probeCount nvcuda = 0 then probeCount cudart else probeCount nvcuda)
    ∧ (cudaDeviceCount nvcuda cudart = 0 →
        CudaHandles.new? nvcuda cudart = Except.error Error.CudaNotFound ∧
        Handlers.new nvcuda cudart = Strategy.Cpu)
    ∧ (0 < cudaDeviceCount nvcuda cudart →
        CudaHandles.new? nvcuda cudart = Except.ok (cudaDeviceCount nvcuda cudart) ∧
        Handlers.new nvcuda cudart = Strategy.Cuda (cudaDeviceCount nvcuda cudart)) := by
  refine ⟨rfl, ?_, ?_⟩
  · intro h0
    have h1 : CudaHandles.new? nvcuda cudart = Except.error Error.CudaNotFound := by
      show (if cudaDeviceCount nvcuda cudart > 0 then
        Except.ok (cudaDeviceCount nvcuda cudart) else
        Except.error Error.CudaNotFound) = _
      rw [if_neg (by omega)]
    refine ⟨h1, ?_⟩
    unfold Handlers.new
    rw [h1]
  · intro hpos
    have h1 : CudaHandles.new? nvcuda cudart =
        Except.ok (cudaDeviceCount nvcuda cudart) := by
      show (if cudaDeviceCount nvcuda cudart > 0 then
        Except.ok (cudaDeviceCount nvcuda cudart) else
        Except.error Error.CudaNotFound) = _
      rw [if_pos hpos]
    refine ⟨h1, ?_⟩
    unfold Handlers.new
    rw [h1]

theorem c7_device_count_fallback_witness :
    CudaHandles.new? (Except.error "no nvcuda") (Except.ok 2) = Except.ok 2 ∧
    Handlers.new (Except.error "no nvcuda") (Except.ok 2) = Strategy.Cuda 2 :=
  (c7_device_count_fallback (Except.error "no nvcuda") (Except.ok 2)).2.2
    (by decide)

/-! ### Claim C8 -/

theorem available_variants_foldl :
    ∀ (entries : List GlobEntry) (acc : List Variant),
    entries.foldl (fun res e =>
      match e with
      | GlobEntry.err => res
      | GlobEntry.okName name => res ++ [parseVariantName name]) acc =
    acc ++ entries.filterMap (fun e =>
      match e with
      | GlobEntry.err => Option.none
      | GlobEntry.okName name => some (parseVariantName name))
  | [], acc => by simp
  | e :: es, acc => by
    cases e with
    | err =>
      show List.foldl _ acc es = acc ++ List.filterMap _ (GlobEntry.err :: es)
      rw [List.filterMap_cons]
      exact available_variants_foldl es acc
    | okName n =>
      show List.foldl _ (acc ++ [parseVariantName n]) es =
        acc ++ List.filterMap _ (GlobEntry.okName n :: es)
      rw [available_variants_foldl es (acc ++ [parseVariantName n]),
        List.filterMap_cons]
      simp

/-- C8: The catalog scan is total, never a panic: a glob failure yields the
empty catalog, and otherwise every unreadable entry (`GlobError`) is skipped
while each matched entry contributes its parsed variant — the scan returns
exactly the parsed variants of the readable matched entries, for every state
of the oracle. -/
theorem c8_scan_never_fatal :
    (∀ entries, available_variants (Except.ok entries) =
      entries.filterMap (fun e =>
        match e with
        | GlobEntry.err => Option.none
        | GlobEntry.okName name => some (parseVariantName name)))
    ∧ available_variants (Except.error ()) = [] := by
  constructor
  · intro entries
    show List.foldl _ [] entries = _
    rw [available_variants_foldl entries []]
    rfl
  · rfl

end Nebula
